import Mathlib

/-!
Verification of the microphone waveform visualizer (`src/pages/Home/index.tsx`).

The renderer's per-frame `draw` routine and the capture-session lifecycle
(`startListening` / `stopListening`) are embedded shallowly.  Pixel
coordinates are modelled as rationals (the source computes them with
JavaScript number arithmetic; all claims under scrutiny involve only exact
dyadic values, where the two agree).  Platform handles (media stream, audio
context, gain node, animation-frame id) are modelled as natural-number
identifiers drawn from an allocation counter.
-/

namespace MicApp

/-- One segment of a 2D canvas path, as produced by `ctx.moveTo` / `ctx.lineTo`. -/
inductive PathSeg where
  | moveTo : ℚ → ℚ → PathSeg
  | lineTo : ℚ → ℚ → PathSeg
deriving DecidableEq, Repr, Inhabited

/-- The y-coordinate carried by a path segment. -/
def PathSeg.segY : PathSeg → ℚ
  | .moveTo _ y => y
  | .lineTo _ y => y

/-- The x-coordinate carried by a path segment. -/
def PathSeg.segX : PathSeg → ℚ
  | .moveTo x _ => x
  | .lineTo x _ => x

/-- Raw y-coordinate of one sample, from the source:
`const v = dataArray[i] / 128.0; const y = (v * canvas.height) / 2;`. -/
def yRaw (H : ℚ) (sample : ℕ) : ℚ :=
  (sample : ℚ) / 128 * H / 2

/-- Smoothed y-coordinate at index `i`, from the source:
`const prevY = i > 0 ? ((dataArray[i - 1] / 128.0) * canvas.height) / 2 : y;`
`const smoothedY = prevY + (y - prevY) * sensitivity;`.
Out-of-range indices read the buffer's default byte 0, matching `Uint8Array`
reads only where the loop stays in range (the loop never leaves range). -/
def smoothedYAt (H s : ℚ) (data : List ℕ) (i : ℕ) : ℚ :=
  let y := yRaw H (data.getD i 0)
  let prevY := if 0 < i then yRaw H (data.getD (i - 1) 0) else y
  prevY + (y - prevY) * s

/-- The path built by one execution of the loop body plus the closing
`ctx.lineTo(canvas.width, canvas.height / 2)`.  In the source, `x` starts at 0
and is incremented by `sliceWidth = canvas.width / bufferLength` after each
iteration, so iteration `i` draws at `x = i * sliceWidth`; exact rational
arithmetic makes the accumulated sum equal to the product. -/
def buildPath (W H s : ℚ) (data : List ℕ) : List PathSeg :=
  ((List.range data.length).map fun (i : ℕ) =>
    if i = 0 then
      PathSeg.moveTo ((i : ℚ) * (W / (data.length : ℚ))) (smoothedYAt H s data i)
    else
      PathSeg.lineTo ((i : ℚ) * (W / (data.length : ℚ))) (smoothedYAt H s data i))
  ++ [PathSeg.lineTo W (H / 2)]

/-- Modelled from the spec: the raw y-coordinate exactly as the specification
words it, `y_raw = (sample[i] / 128) * H/2`. -/
def spec_y_raw (H : ℚ) (data : List ℕ) (i : ℕ) : ℚ :=
  (data.getD i 0 : ℚ) / 128 * (H / 2)

/-- Modelled from the spec: the smoothed y-coordinate exactly as the
specification words it, `y_smoothed[i] = y_smoothed_prev + (y_raw[i] -
y_smoothed_prev) * sensitivity` where `y_smoothed_prev` is `y_raw[i-1]` for
`i > 0` and `y_raw[0]` for `i = 0`. -/
def spec_y_smoothed (H s : ℚ) (data : List ℕ) (i : ℕ) : ℚ :=
  let prev := if i = 0 then spec_y_raw H data 0 else spec_y_raw H data (i - 1)
  prev + (spec_y_raw H data i - prev) * s

theorem yRaw_eq_spec (H : ℚ) (data : List ℕ) (i : ℕ) :
    yRaw H (data.getD i 0) = spec_y_raw H data i := by
  simp only [yRaw, spec_y_raw]
  ring

theorem smoothedYAt_eq_spec (H s : ℚ) (data : List ℕ) (i : ℕ) :
    smoothedYAt H s data i = spec_y_smoothed H s data i := by
  simp only [smoothedYAt, spec_y_smoothed, yRaw_eq_spec]
  rcases Nat.eq_zero_or_pos i with h | h
  · subst h
    simp
  · rw [if_pos h, if_neg (Nat.pos_iff_ne_zero.mp h)]

theorem buildPath_length (W H s : ℚ) (data : List ℕ) :
    (buildPath W H s data).length = data.length + 1 := by
  simp [buildPath]

theorem buildPath_getD_lt (W H s : ℚ) (data : List ℕ) (i : ℕ)
    (h : i < data.length) :
    (buildPath W H s data).getD i default =
      if i = 0 then
        PathSeg.moveTo ((i : ℚ) * (W / (data.length : ℚ))) (smoothedYAt H s data i)
      else
        PathSeg.lineTo ((i : ℚ) * (W / (data.length : ℚ))) (smoothedYAt H s data i) := by
  have hlen : i < ((List.range data.length).map fun (j : ℕ) =>
      if j = 0 then
        PathSeg.moveTo ((j : ℚ) * (W / (data.length : ℚ))) (smoothedYAt H s data j)
      else
        PathSeg.lineTo ((j : ℚ) * (W / (data.length : ℚ))) (smoothedYAt H s data j)).length := by
    simpa using h
  rw [buildPath, List.getD_append _ _ _ _ hlen, List.getD_eq_getElem _ _ hlen]
  simp

theorem buildPath_getD_last (W H s : ℚ) (data : List ℕ) :
    (buildPath W H s data).getD data.length default = PathSeg.lineTo W (H / 2) := by
  have hlen : ((List.range data.length).map fun (j : ℕ) =>
      if j = 0 then
        PathSeg.moveTo ((j : ℚ) * (W / (data.length : ℚ))) (smoothedYAt H s data j)
      else
        PathSeg.lineTo ((j : ℚ) * (W / (data.length : ℚ))) (smoothedYAt H s data j)).length
        = data.length := by
    simp
  rw [buildPath]
  rw [List.getD_eq_getElem?_getD, List.getElem?_append_right (le_of_eq hlen)]
  simp [hlen]

/-- One frame of the render loop as the source actually runs it.  The `draw`
closure is created inside `startListening` and therefore references the
`sensitivity` constant of the component render in which `startListening` was
invoked; a later state update produces a new render with a new constant, but
the self-rescheduling `draw` closure keeps reading the captured one.  Hence
the path depends only on the captured value, never on the value current at
the frame. -/
def frameOutput (W H capturedSens currentSens : ℚ) (data : List ℕ) : List PathSeg :=
  buildPath W H capturedSens data

/-- State of the capture session: the four host-managed mutable references of
the component (`mediaStreamRef`, `audioContextRef`, `gainNodeRef`,
`animationRef`), the `listening` flag, plus bookkeeping that the shallow
embedding needs: an id allocator, the set of acquired-and-not-stopped media
streams, the set of created-and-not-closed audio contexts, and whether an
animation-frame callback is pending. -/
structure SessionState where
  nextId : ℕ
  mediaStreamRef : Option ℕ
  audioContextRef : Option ℕ
  gainNodeRef : Option ℕ
  animationRef : ℕ
  pendingFrame : Bool
  listening : Bool
  liveStreams : List ℕ
  liveContexts : List ℕ
deriving DecidableEq, Repr

/-- The component's state on mount: `useRef(null)` for the three handles,
`useRef(0)` for the animation id, `listening` false, nothing live. -/
def initialSession : SessionState :=
  { nextId := 1
    mediaStreamRef := none
    audioContextRef := none
    gainNodeRef := none
    animationRef := 0
    pendingFrame := false
    listening := false
    liveStreams := []
    liveContexts := [] }

/-- Point at which a `startListening` attempt throws, indexed by the last
operation reached.  `atGetUserMedia`: `getUserMedia` rejects (permission
denied, device removed) before anything was acquired.  `atAudioContextCtor`:
the `AudioContext` constructor throws after the stream was acquired.
`atCreateNodes`: `createMediaStreamSource` / `createAnalyser` / `createGain`
throws after stream and context exist but before `gainNodeRef.current` was
assigned.  `atConnect`: `getContext` / `connect` / the first `draw` throws
after `gainNodeRef.current = gainNode` already ran. -/
inductive StartFail where
  | atGetUserMedia
  | atAudioContextCtor
  | atCreateNodes
  | atConnect
deriving DecidableEq, Repr

/-- The `startListening` handler.  `fail = none` is the successful run: it
acquires a stream, creates an audio context and gain node, assigns
`gainNodeRef.current`, runs `draw()` once (which schedules the next frame into
`animationRef.current`), stores the stream and context refs and sets
`listening`.  `fail = some p` is the run in which the operation at `p` throws:
every mutation made before `p` persists, the `catch` block only logs, and
nothing else changes.  Allocated ids: stream `nextId`, context `nextId + 1`,
gain node `nextId + 2`, animation frame `nextId + 3`. -/
def startListening (s : SessionState) (fail : Option StartFail) : SessionState :=
  match fail with
  | some .atGetUserMedia => s
  | some .atAudioContextCtor =>
      { s with nextId := s.nextId + 1
               liveStreams := s.nextId :: s.liveStreams }
  | some .atCreateNodes =>
      { s with nextId := s.nextId + 2
               liveStreams := s.nextId :: s.liveStreams
               liveContexts := (s.nextId + 1) :: s.liveContexts }
  | some .atConnect =>
      { s with nextId := s.nextId + 3
               liveStreams := s.nextId :: s.liveStreams
               liveContexts := (s.nextId + 1) :: s.liveContexts
               gainNodeRef := some (s.nextId + 2) }
  | none =>
      { s with nextId := s.nextId + 4
               liveStreams := s.nextId :: s.liveStreams
               liveContexts := (s.nextId + 1) :: s.liveContexts
               gainNodeRef := some (s.nextId + 2)
               animationRef := s.nextId + 3
               pendingFrame := true
               mediaStreamRef := some s.nextId
               audioContextRef := some (s.nextId + 1)
               listening := true }

/-- The `stopListening` handler, step for step from the source: stop the
tracks of the held stream and null its ref (guarded on the stream ref), close
the held context and null its ref (guarded on the context ref), cancel the
pending animation frame (guarded on a nonzero animation id, which is NOT
reset), then `setListening(false)`.  The gain-node ref is not touched. -/
def stopListening (s : SessionState) : SessionState :=
  let s1 :=
    match s.mediaStreamRef with
    | some st => { s with liveStreams := s.liveStreams.erase st, mediaStreamRef := none }
    | none => s
  let s2 :=
    match s1.audioContextRef with
    | some c => { s1 with liveContexts := s1.liveContexts.erase c, audioContextRef := none }
    | none => s1
  let s3 :=
    if s2.animationRef ≠ 0 then { s2 with pendingFrame := false } else s2
  { s3 with listening := false }

/-- The toggle button, the component's only caller of the two handlers:
`onClick={listening ? stopListening : startListening}`. -/
def clickButton (s : SessionState) (fail : Option StartFail) : SessionState :=
  if s.listening then stopListening s else startListening s fail

/-- Run a sequence of button clicks from a given state; each click carries the
outcome of its `startListening` attempt (ignored when the click stops). -/
def runClicks (s : SessionState) : List (Option StartFail) → SessionState
  | [] => s
  | f :: fs => runClicks (clickButton s f) fs

/-- Streams that are still live (tracks never stopped) but no longer reachable
from the session's stream ref — leaked device handles. -/
def leakedStreams (s : SessionState) : List ℕ :=
  s.liveStreams.filter fun st => s.mediaStreamRef ≠ some st

/-- Session invariant: when not listening both refs are null, and the live
stream/context sets are exactly what the refs point at. -/
def sessionInv (s : SessionState) : Prop :=
  (s.listening = false → s.mediaStreamRef = none ∧ s.audioContextRef = none) ∧
  (match s.mediaStreamRef with
   | some st => s.liveStreams = [st]
   | none => s.liveStreams = []) ∧
  (match s.audioContextRef with
   | some c => s.liveContexts = [c]
   | none => s.liveContexts = [])

/-- C1: for each frame and each index i in [0, N), the y-coordinate the
renderer emits at index i equals the spec formula: y_smoothed[i] =
y_smoothed_prev + (y_raw[i] - y_smoothed_prev) * sensitivity, with
y_smoothed_prev = y_raw[i-1] for i > 0 and y_raw[0] for i = 0, and
y_raw[i] = (sample[i] / 128) * H/2. -/
theorem C1_smoothing_formula (W H s : ℚ) (data : List ℕ) (i : ℕ)
    (h : i < data.length) :
    PathSeg.segY ((buildPath W H s data).getD i default) = spec_y_smoothed H s data i := by
  rw [buildPath_getD_lt W H s data i h]
  rcases eq_or_ne i 0 with h0 | h0 <;>
    simp [h0, PathSeg.segY, smoothedYAt_eq_spec]

theorem C1_smoothing_formula_witness :
    1 < [130, 100, 90].length ∧
    PathSeg.segY ((buildPath 300 70 (1/5) [130, 100, 90]).getD 1 default) =
      spec_y_smoothed 70 (1/5) [130, 100, 90] 1 :=
  ⟨by decide, C1_smoothing_formula 300 70 (1/5) [130, 100, 90] 1 (by decide)⟩

/-- C2: for every nonempty N-length buffer the path is exactly N+1 segments:
a move-to at (0, y_smoothed[0]), line-tos at (i·(W/N), y_smoothed[i]) for
i = 1..N-1, and a final line-to at (W, H/2). -/
theorem C2_path_segments (W H s : ℚ) (data : List ℕ) (h : 0 < data.length) :
    (buildPath W H s data).length = data.length + 1 ∧
    (buildPath W H s data).getD 0 default = PathSeg.moveTo 0 (smoothedYAt H s data 0) ∧
    (∀ i : ℕ, 0 < i → i < data.length →
      (buildPath W H s data).getD i default =
        PathSeg.lineTo ((i : ℚ) * (W / (data.length : ℚ))) (smoothedYAt H s data i)) ∧
    (buildPath W H s data).getD data.length default = PathSeg.lineTo W (H / 2) := by
  refine ⟨buildPath_length W H s data, ?_, ?_, buildPath_getD_last W H s data⟩
  · rw [buildPath_getD_lt W H s data 0 h]
    simp
  · intro i hi hlt
    rw [buildPath_getD_lt W H s data i hlt]
    simp [Nat.pos_iff_ne_zero.mp hi]

theorem C2_path_segments_witness :
    0 < [128, 200].length ∧
    ((buildPath 300 70 (1/5) [128, 200]).length = [128, 200].length + 1 ∧
     (buildPath 300 70 (1/5) [128, 200]).getD 0 default =
       PathSeg.moveTo 0 (smoothedYAt 70 (1/5) [128, 200] 0) ∧
     (∀ i : ℕ, 0 < i → i < [128, 200].length →
       (buildPath 300 70 (1/5) [128, 200]).getD i default =
         PathSeg.lineTo ((i : ℚ) * (300 / ([128, 200].length : ℚ)))
           (smoothedYAt 70 (1/5) [128, 200] i)) ∧
     (buildPath 300 70 (1/5) [128, 200]).getD [128, 200].length default =
       PathSeg.lineTo 300 (70 / 2)) :=
  ⟨by decide, C2_path_segments 300 70 (1/5) [128, 200] (by decide)⟩

/-- C3 as stated is false at the concrete input it names: for the silence
buffer [128,128,128,128] with H = 70 the renderer's y values are 35 = H/2,
not 0 — already y_smoothed[0] (here at sensitivity 1/2) equals 35 ≠ 0. -/
theorem C3_counterexample :
    smoothedYAt 70 (1/2) [128, 128, 128, 128] 0 = 35 ∧ (35 : ℚ) ≠ 0 := by
  constructor
  · norm_num [smoothedYAt, yRaw]
  · norm_num

/-- C3 amended: for the silence buffer [128,128,128,128] with H = 70, every
y_raw and every y_smoothed equals 35 = H/2 (not 0) regardless of the
sensitivity, so the rendered path — closing segment included — is a flat
horizontal line at height H/2. -/
theorem C3_silence_flat (W s : ℚ) (seg : PathSeg)
    (hseg : seg ∈ buildPath W 70 s [128, 128, 128, 128]) :
    yRaw 70 128 = 35 ∧ PathSeg.segY seg = 35 := by
  have hy : ∀ i : ℕ, i < 4 → smoothedYAt 70 s [128, 128, 128, 128] i = 35 := by
    intro i hi
    interval_cases i <;> norm_num [smoothedYAt, yRaw]
  refine ⟨by norm_num [yRaw], ?_⟩
  simp only [buildPath, List.mem_append, List.mem_map, List.mem_range,
    List.mem_singleton, List.length_cons, List.length_nil] at hseg
  rcases hseg with ⟨i, hi, rfl⟩ | rfl
  · rcases eq_or_ne i 0 with h0 | h0
    · subst h0
      simp [PathSeg.segY, hy 0 (by omega)]
    · simp [h0, PathSeg.segY, hy i (by omega)]
  · norm_num [PathSeg.segY]

theorem C3_silence_flat_witness :
    PathSeg.moveTo 0 35 ∈ buildPath 300 70 (1/2) [128, 128, 128, 128] ∧
    (yRaw 70 128 = 35 ∧ PathSeg.segY (PathSeg.moveTo 0 35) = 35) := by
  have hmem : PathSeg.moveTo 0 35 ∈ buildPath 300 70 (1/2) [128, 128, 128, 128] := by
    simp [buildPath, List.range_succ, smoothedYAt, yRaw]
    norm_num
  exact ⟨hmem, C3_silence_flat 300 (1/2) (PathSeg.moveTo 0 35) hmem⟩

/-- C4 as stated is false: for the buffer [255,0,255,0] with H = 70 the first
raw y is (255/128)·(70/2) = 8925/128, not +H/2 = 35. -/
theorem C4_counterexample :
    yRaw 70 ([255, 0, 255, 0].getD 0 0) ≠ 70 / 2 := by
  norm_num [yRaw]

/-- C4 amended: for the buffer [255,0,255,0] with sensitivity 1 the raw
sequence is [255·H/256, 0, 255·H/256, 0] — the extrema map to (255/128)·(H/2)
and 0, not +H/2 and −H/2 — and y_smoothed reproduces y_raw element for
element. -/
theorem C4_extremes_sens_one (H : ℚ) (i : ℕ) (h : i < 4) :
    smoothedYAt H 1 [255, 0, 255, 0] i = yRaw H ([255, 0, 255, 0].getD i 0) ∧
    yRaw H ([255, 0, 255, 0].getD i 0) =
      [255 * H / 256, 0, 255 * H / 256, 0].getD i 0 := by
  interval_cases i <;> refine ⟨?_, ?_⟩ <;> norm_num [smoothedYAt, yRaw] <;> try ring

theorem C4_extremes_sens_one_witness :
    1 < 4 ∧
    (smoothedYAt 70 1 [255, 0, 255, 0] 1 = yRaw 70 ([255, 0, 255, 0].getD 1 0) ∧
     yRaw 70 ([255, 0, 255, 0].getD 1 0) =
       [255 * (70 : ℚ) / 256, 0, 255 * 70 / 256, 0].getD 1 0) :=
  ⟨by decide, C4_extremes_sens_one 70 1 (by decide)⟩

/-- C5 is violated by the code: the draw closure uses the sensitivity value
captured at the render in which the loop started, not the value current at the
frame.  With captured sensitivity 1/5 and the slider since moved to 4/5, the
frame still renders the 1/5 path, which differs from the 4/5 path. -/
theorem C5_sensitivity_stale :
    frameOutput 300 70 (1/5) (4/5) [0, 255] = buildPath 300 70 (1/5) [0, 255] ∧
    frameOutput 300 70 (1/5) (4/5) [0, 255] ≠ buildPath 300 70 (4/5) [0, 255] := by
  refine ⟨rfl, ?_⟩
  simp only [frameOutput, buildPath, List.range_succ, smoothedYAt, yRaw]
  norm_num
  refine ⟨1, by norm_num, ?_⟩
  norm_num

/-- C6 as stated is false: when a start attempt fails after
`gainNodeRef.current = gainNode` already ran (e.g. a `connect` call throws),
the gain-node handle has been overwritten, so not all prior session state is
unchanged — here it goes from `none` to `some 3` while listening stays false. -/
theorem C6_counterexample :
    (startListening initialSession (some StartFail.atConnect)).gainNodeRef ≠
      initialSession.gainNodeRef ∧
    (startListening initialSession (some StartFail.atConnect)).listening = false := by
  constructor
  · simp [startListening, initialSession]
  · rfl

/-- C6 amended: a failed startListening only logs a diagnostic; the listening
flag, the stream ref, the audio-context ref, the animation id and the pending
frame are unchanged from before the attempt; the gain-node ref is also
unchanged unless the failure happens after the gain node was created and
assigned, in which case it has been overwritten with the freshly created
node. -/
theorem C6_start_failure_state (s : SessionState) (fp : StartFail) :
    (startListening s (some fp)).listening = s.listening ∧
    (startListening s (some fp)).mediaStreamRef = s.mediaStreamRef ∧
    (startListening s (some fp)).audioContextRef = s.audioContextRef ∧
    (startListening s (some fp)).animationRef = s.animationRef ∧
    (startListening s (some fp)).pendingFrame = s.pendingFrame ∧
    (startListening s (some fp)).gainNodeRef =
      (match fp with
       | .atConnect => some (s.nextId + 2)
       | _ => s.gainNodeRef) := by
  cases fp <;> simp [startListening]

/-- C7 as stated is false: after tearing down an active session, the
animation-frame id is still the nonzero id of the cancelled frame (never
reset to 0) and the gain-node ref is still set (never nulled), so not every
session-owned handle is nulled on teardown. -/
theorem C7_counterexample :
    (stopListening (startListening initialSession none)).animationRef ≠ 0 ∧
    (stopListening (startListening initialSession none)).gainNodeRef ≠ none := by
  constructor <;> simp [startListening, stopListening, initialSession]

/-- C7 amended: stopListening performs the three teardown steps each behind
its own independent guard — for every state, whatever combination of handles
is null: the held stream's tracks are stopped and its ref nulled, the held
context closed and its ref nulled, the pending frame cancelled when the
animation id is nonzero, and the listening flag cleared; but the animation id
and the gain-node ref are left as they were, not nulled. -/
theorem C7_stop_teardown (s : SessionState) :
    (stopListening s).mediaStreamRef = none ∧
    (stopListening s).audioContextRef = none ∧
    (stopListening s).listening = false ∧
    (stopListening s).gainNodeRef = s.gainNodeRef ∧
    (stopListening s).animationRef = s.animationRef ∧
    (stopListening s).pendingFrame =
      (if s.animationRef ≠ 0 then false else s.pendingFrame) ∧
    (stopListening s).liveStreams =
      (match s.mediaStreamRef with
       | some st => s.liveStreams.erase st
       | none => s.liveStreams) ∧
    (stopListening s).liveContexts =
      (match s.audioContextRef with
       | some c => s.liveContexts.erase c
       | none => s.liveContexts) := by
  rcases s with ⟨n, ms, ac, gn, ar, pf, l, ls, lc⟩
  rcases ms with _ | st <;> rcases ac with _ | c <;>
    by_cases har : ar = 0 <;> simp [stopListening, har]

/-- C8 as stated is false: calling startListening directly while a session is
already capturing acquires a second session and leaks the first — afterwards
two streams are live and the first (id 1) is no longer reachable from the
stream ref, so the call is neither a no-op nor a clean restart. -/
theorem C8_counterexample :
    (startListening (startListening initialSession none) none).liveStreams.length = 2 ∧
    leakedStreams (startListening (startListening initialSession none) none) = [1] := by
  constructor <;> rfl

theorem sessionInv_initial : sessionInv initialSession := by
  simp [sessionInv, initialSession]

theorem clickButton_inv (s : SessionState) (f : Option StartFail)
    (hs : sessionInv s) (hf : f = none ∨ f = some StartFail.atGetUserMedia) :
    sessionInv (clickButton s f) := by
  obtain ⟨h1, h2, h3⟩ := hs
  by_cases hl : s.listening
  · rcases s with ⟨n, ms, ac, gn, ar, pf, l, ls, lc⟩
    simp only at h2 h3 hl
    rcases ms with _ | st <;> rcases ac with _ | c <;>
      simp_all [clickButton, stopListening, sessionInv] <;>
      by_cases har : ar = 0 <;> simp [har]
  · obtain ⟨hms, hac⟩ := h1 (by simpa using hl)
    have hls : s.liveStreams = [] := by
      rw [hms] at h2
      exact h2
    have hlc : s.liveContexts = [] := by
      rw [hac] at h3
      exact h3
    rcases hf with rfl | rfl
    · simp [clickButton, hl, startListening, sessionInv, hls, hlc]
    · have heq : clickButton s (some StartFail.atGetUserMedia) = s := by
        simp [clickButton, hl, startListening]
      rw [heq]
      exact ⟨h1, h2, h3⟩

theorem runClicks_inv (fs : List (Option StartFail)) (s : SessionState)
    (hs : sessionInv s)
    (hf : ∀ f ∈ fs, f = none ∨ f = some StartFail.atGetUserMedia) :
    sessionInv (runClicks s fs) := by
  induction fs generalizing s with
  | nil => simpa [runClicks] using hs
  | cons f fs ih =>
      exact ih (clickButton s f)
        (clickButton_inv s f hs (hf f (by simp)))
        (fun g hg => hf g (by simp [hg]))

theorem sessionInv_no_leak (s : SessionState) (hs : sessionInv s) :
    s.liveStreams.length ≤ 1 ∧ leakedStreams s = [] := by
  obtain ⟨h1, h2, h3⟩ := hs
  rcases hms : s.mediaStreamRef with _ | st <;> rw [hms] at h2
  · simp [leakedStreams, h2]
  · simp [leakedStreams, h2, hms]

/-- C8 amended: startListening itself has no re-entrancy guard — called
directly while capturing it leaks the previous stream — but the component's
only entry point is the toggle button, which invokes stopListening whenever
listening is set; over every button-click sequence whose start attempts
either fully succeed or fail at the initial stream acquisition, at most one
capture session is ever live and no acquired stream is leaked. -/
theorem C8_button_no_leak (fs : List (Option StartFail))
    (hf : ∀ f ∈ fs, f = none ∨ f = some StartFail.atGetUserMedia) :
    (runClicks initialSession fs).liveStreams.length ≤ 1 ∧
    leakedStreams (runClicks initialSession fs) = [] :=
  sessionInv_no_leak _ (runClicks_inv fs initialSession sessionInv_initial hf)

theorem C8_button_no_leak_witness :
    (∀ f ∈ [none, some StartFail.atGetUserMedia, none, none],
      f = none ∨ f = some StartFail.atGetUserMedia) ∧
    ((runClicks initialSession
        [none, some StartFail.atGetUserMedia, none, none]).liveStreams.length ≤ 1 ∧
      leakedStreams (runClicks initialSession
        [none, some StartFail.atGetUserMedia, none, none]) = []) :=
  ⟨by decide, C8_button_no_leak _ (by decide)⟩

/-- C9: stopListening on an already-idle session (stream ref null, context
ref null, no pending animation id, listening flag false) raises no error and
leaves the whole session state unchanged. -/
theorem C9_stop_idle_noop (s : SessionState)
    (h1 : s.mediaStreamRef = none) (h2 : s.audioContextRef = none)
    (h3 : s.animationRef = 0) (h4 : s.listening = false) :
    stopListening s = s := by
  rcases s with ⟨n, ms, ac, gn, ar, pf, l, ls, lc⟩
  simp only at h1 h2 h3 h4
  subst h1
  subst h2
  subst h3
  subst h4
  simp [stopListening]

theorem C9_stop_idle_noop_witness :
    (initialSession.mediaStreamRef = none ∧ initialSession.audioContextRef = none ∧
     initialSession.animationRef = 0 ∧ initialSession.listening = false) ∧
    stopListening initialSession = initialSession :=
  ⟨⟨rfl, rfl, rfl, rfl⟩, C9_stop_idle_noop initialSession rfl rfl rfl rfl⟩

theorem yRaw_eq_mul (H : ℚ) (b : ℕ) : yRaw H b = (b : ℚ) * H / 256 := by
  unfold yRaw
  ring

theorem yRaw_nonneg (H : ℚ) (hH : 0 ≤ H) (b : ℕ) : 0 ≤ yRaw H b := by
  rw [yRaw_eq_mul]
  have hb : (0 : ℚ) ≤ (b : ℚ) := Nat.cast_nonneg b
  have := mul_nonneg hb hH
  linarith

theorem yRaw_le (H : ℚ) (hH : 0 ≤ H) (b : ℕ) (hb : b ≤ 255) :
    yRaw H b ≤ 255 / 128 * (H / 2) := by
  rw [yRaw_eq_mul]
  have hb255 : ((b : ℚ)) ≤ 255 := by
    exact_mod_cast hb
  have h2 : (b : ℚ) * H ≤ 255 * H := mul_le_mul_of_nonneg_right hb255 hH
  linarith

theorem lerp_bounds (a b s lo hi : ℚ) (ha : lo ≤ a) (hA : a ≤ hi)
    (hb : lo ≤ b) (hB : b ≤ hi) (hs : 0 ≤ s) (hs1 : s ≤ 1) :
    lo ≤ a + (b - a) * s ∧ a + (b - a) * s ≤ hi := by
  constructor <;> nlinarith

theorem smoothedYAt_bounds (H s : ℚ) (data : List ℕ) (i : ℕ)
    (hH : 0 ≤ H) (hs0 : 0 ≤ s) (hs1 : s ≤ 1) (hdata : ∀ b ∈ data, b ≤ 255)
    (hi : i < data.length) :
    0 ≤ smoothedYAt H s data i ∧ smoothedYAt H s data i ≤ 255 / 128 * (H / 2) := by
  have hget : ∀ j : ℕ, j < data.length → data.getD j 0 ≤ 255 := by
    intro j hj
    rw [List.getD_eq_getElem data 0 hj]
    exact hdata _ (List.getElem_mem hj)
  unfold smoothedYAt
  by_cases h0 : 0 < i
  · simp only [h0, if_pos]
    exact lerp_bounds _ _ s 0 (255 / 128 * (H / 2))
      (yRaw_nonneg H hH _) (yRaw_le H hH _ (hget (i - 1) (by omega)))
      (yRaw_nonneg H hH _) (yRaw_le H hH _ (hget i hi)) hs0 hs1
  · simp only [h0, if_neg, if_false]
    have h1 := yRaw_nonneg H hH (data.getD i 0)
    have h2 := yRaw_le H hH (data.getD i 0) (hget i hi)
    constructor <;> nlinarith

/-- C10: for every buffer of bytes in [0,255] and every sensitivity in [0,1],
every y-coordinate the renderer emits into the path — each smoothed y and the
final H/2 — lies within the canvas's vertical bounds:
0 ≤ y ≤ (255/128)·(H/2) < H. -/
theorem C10_y_bounds (W H s : ℚ) (data : List ℕ) (seg : PathSeg)
    (hH : 0 < H) (hs0 : 0 ≤ s) (hs1 : s ≤ 1)
    (hdata : ∀ b ∈ data, b ≤ 255)
    (hseg : seg ∈ buildPath W H s data) :
    (0 ≤ PathSeg.segY seg ∧ PathSeg.segY seg ≤ 255 / 128 * (H / 2)) ∧
      255 / 128 * (H / 2) < H := by
  have hbound : 255 / 128 * (H / 2) < H := by
    linarith
  refine ⟨?_, hbound⟩
  simp only [buildPath, List.mem_append, List.mem_map, List.mem_range,
    List.mem_singleton] at hseg
  rcases hseg with ⟨i, hi, rfl⟩ | rfl
  · have hb := smoothedYAt_bounds H s data i (le_of_lt hH) hs0 hs1 hdata hi
    rcases eq_or_ne i 0 with h0 | h0
    · subst h0
      simpa [PathSeg.segY] using hb
    · simpa [h0, PathSeg.segY] using hb
  · have : (0 : ℚ) ≤ H / 2 := by linarith
    constructor
    · simpa [PathSeg.segY]
    · simp only [PathSeg.segY]
      nlinarith

theorem C10_y_bounds_witness :
    ((0 : ℚ) < 70 ∧ (0 : ℚ) ≤ 1/5 ∧ (1/5 : ℚ) ≤ 1 ∧
      (∀ b ∈ [0, 255], b ≤ 255) ∧
      PathSeg.lineTo 300 (70 / 2) ∈ buildPath 300 70 (1/5) [0, 255]) ∧
    ((0 ≤ PathSeg.segY (PathSeg.lineTo 300 (70 / 2)) ∧
      PathSeg.segY (PathSeg.lineTo 300 (70 / 2)) ≤ 255 / 128 * ((70 : ℚ) / 2)) ∧
      255 / 128 * ((70 : ℚ) / 2) < 70) := by
  have hmem : PathSeg.lineTo 300 (70 / 2) ∈ buildPath 300 70 (1/5) [0, 255] := by
    simp [buildPath]
  exact ⟨⟨by norm_num, by norm_num, by norm_num, by decide, hmem⟩,
    C10_y_bounds 300 70 (1/5) [0, 255] (PathSeg.lineTo 300 (70 / 2))
      (by norm_num) (by norm_num) (by norm_num) (by decide) hmem⟩

end MicApp
